import Mathlib

/-!
Verification development for the job scheduling and execution engine of the
yt-gui repository (src/modules/download_manager.py, src/core/service_manager.py,
src/database/db_manager.py).

The engine is shallowly embedded: the asyncio priority queue is a list of
entries popped at the minimum of the key (negated priority, created_at) —
exactly the tuples the source pushes; the active/paused dicts are lists of
task ids; the task table maps ids (assigned sequentially, standing in for
uuid4) to task records.  Each atomic block of the source (code between two
asyncio suspension points) becomes one transition function, so interleavings
of the worker loop with pause/resume/cancel are action sequences.
-/

/-- Mirrors DownloadStatus in download_manager.py. -/
inductive DownloadStatus where
  | pending
  | downloading
  | processing
  | completed
  | failed
  | cancelled
  | paused
deriving DecidableEq, Repr

/-- Mirrors the DownloadTask dataclass (fields the engine logic touches). -/
structure DownloadTask where
  id : Nat
  url : String
  priority : Int
  created_at : Nat
  status : DownloadStatus
  retry_count : Nat
  progress : Nat
  error_message : Option String
deriving DecidableEq, Repr

/-- Mirrors ServiceConfig in service_manager.py (defaults included). -/
structure ServiceConfig where
  max_workers : Nat := 5
  retry_count : Nat := 3
  timeout : Nat := 300
  enabled : Bool := true
deriving DecidableEq, Repr

def defaultConfig : ServiceConfig := {}

/-- One entry of the asyncio.PriorityQueue: the source pushes the tuple
(-priority, task.created_at, task); we carry the task id. -/
structure QEntry where
  negPriority : Int
  created_at : Nat
  taskId : Nat
deriving DecidableEq, Repr

/-- Comparison used by the min-heap: lexicographic on (negPriority, created_at).
Ties on the full key never arise in the claims (created_at values are distinct
per priority level in every scenario considered). -/
def qLe (a b : QEntry) : Prop :=
  a.negPriority < b.negPriority ∨
    (a.negPriority = b.negPriority ∧ a.created_at ≤ b.created_at)

instance (a b : QEntry) : Decidable (qLe a b) := by
  unfold qLe; infer_instance

theorem qLe_refl (a : QEntry) : qLe a a := by
  unfold qLe; omega

theorem qLe_trans {a b c : QEntry} (h1 : qLe a b) (h2 : qLe b c) : qLe a c := by
  unfold qLe at *; omega

theorem qLe_total (a b : QEntry) : qLe a b ∨ qLe b a := by
  unfold qLe; omega

/-- Removes the minimal entry of the queue (asyncio.PriorityQueue.get); stable:
the earliest-pushed entry wins among equal keys. -/
def popMin : List QEntry → Option (QEntry × List QEntry)
  | [] => none
  | e :: es =>
    match popMin es with
    | none => some (e, es)
    | some (m, rest) => if qLe e m then some (e, es) else some (m, e :: rest)

theorem popMin_eq_none {l : List QEntry} : popMin l = none ↔ l = [] := by
  cases l with
  | nil => simp [popMin]
  | cons e es =>
    simp only [popMin]
    cases h : popMin es with
    | none => simp
    | some p => cases p with
      | mk m rest => by_cases hq : qLe e m <;> simp [hq]

theorem popMin_perm {l : List QEntry} {e : QEntry} {rest : List QEntry}
    (h : popMin l = some (e, rest)) : l.Perm (e :: rest) := by
  induction l generalizing e rest with
  | nil => simp [popMin] at h
  | cons x xs ih =>
    simp only [popMin] at h
    cases hx : popMin xs with
    | none =>
      rw [hx] at h
      simp only [Option.some.injEq, Prod.mk.injEq] at h
      obtain ⟨rfl, rfl⟩ := h
      exact List.Perm.refl _
    | some p =>
      obtain ⟨m, r⟩ := p
      rw [hx] at h
      by_cases hq : qLe x m
      · simp only [hq, if_pos] at h
        simp only [Option.some.injEq, Prod.mk.injEq] at h
        obtain ⟨rfl, rfl⟩ := h
        exact List.Perm.refl _
      · simp only [hq, if_neg, not_false_iff] at h
        simp only [Option.some.injEq, Prod.mk.injEq] at h
        obtain ⟨h1, h2⟩ := h
        subst h1
        subst h2
        exact ((ih hx).cons x).trans (List.Perm.swap _ _ _)

theorem popMin_min {l : List QEntry} {e : QEntry} {rest : List QEntry}
    (h : popMin l = some (e, rest)) : ∀ x ∈ l, qLe e x := by
  induction l generalizing e rest with
  | nil => simp [popMin] at h
  | cons x xs ih =>
    simp only [popMin] at h
    cases hx : popMin xs with
    | none =>
      rw [hx] at h
      simp only [Option.some.injEq, Prod.mk.injEq] at h
      obtain ⟨rfl, rfl⟩ := h
      have hxs : xs = [] := popMin_eq_none.mp hx
      subst hxs
      intro y hy
      simp at hy
      subst hy
      exact qLe_refl _
    | some p =>
      obtain ⟨m, r⟩ := p
      rw [hx] at h
      by_cases hq : qLe x m
      · simp only [hq, if_pos] at h
        simp only [Option.some.injEq, Prod.mk.injEq] at h
        obtain ⟨h1, h2⟩ := h
        subst h1
        subst h2
        exact List.forall_mem_cons.mpr
          ⟨qLe_refl _, fun y hy => qLe_trans hq (ih hx y hy)⟩
      · simp only [hq, if_neg, not_false_iff] at h
        simp only [Option.some.injEq, Prod.mk.injEq] at h
        obtain ⟨h1, h2⟩ := h
        subst h1
        subst h2
        exact List.forall_mem_cons.mpr
          ⟨(qLe_total x m).resolve_left hq, fun y hy => ih hx y hy⟩

/-- Repeatedly pops the queue: the order in which workers receive the jobs. -/
def drain : Nat → List QEntry → List QEntry
  | 0, _ => []
  | fuel + 1, q =>
    match popMin q with
    | none => []
    | some (e, rest) => e :: drain fuel rest

def drainAll (q : List QEntry) : List QEntry := drain q.length q

theorem drain_mem {fuel : Nat} {q : List QEntry} {x : QEntry}
    (h : x ∈ drain fuel q) : x ∈ q := by
  induction fuel generalizing q with
  | zero => simp [drain] at h
  | succ n ih =>
    simp only [drain] at h
    cases hp : popMin q with
    | none => rw [hp] at h; simp at h
    | some p =>
      obtain ⟨e, rest⟩ := p
      rw [hp] at h
      have hperm := popMin_perm hp
      rcases List.mem_cons.mp h with rfl | h
      · exact hperm.mem_iff.mpr (List.mem_cons_self _ _)
      · exact hperm.mem_iff.mpr (List.mem_cons_of_mem _ (ih h))

theorem drain_sorted (fuel : Nat) (q : List QEntry) :
    List.Pairwise qLe (drain fuel q) := by
  induction fuel generalizing q with
  | zero => simp [drain]
  | succ n ih =>
    simp only [drain]
    cases hp : popMin q with
    | none => simp
    | some p =>
      obtain ⟨e, rest⟩ := p
      refine List.Pairwise.cons ?_ (ih rest)
      intro x hx
      exact popMin_min hp x ((popMin_perm hp).mem_iff.mpr
        (List.mem_cons_of_mem _ (drain_mem hx)))

theorem drain_perm {fuel : Nat} {q : List QEntry} (h : q.length ≤ fuel) :
    (drain fuel q).Perm q := by
  induction fuel generalizing q with
  | zero =>
    have : q = [] := List.length_eq_zero.mp (Nat.le_zero.mp h)
    subst this
    simp [drain]
  | succ n ih =>
    simp only [drain]
    cases hp : popMin q with
    | none =>
      have : q = [] := popMin_eq_none.mp hp
      subst this
      simp
    | some p =>
      obtain ⟨e, rest⟩ := p
      have hperm := popMin_perm hp
      have hlen : rest.length + 1 = q.length := by
        have := hperm.length_eq
        simpa using this.symm
      have : rest.length ≤ n := by omega
      exact ((ih this).cons e).trans hperm.symm

theorem drainAll_perm (q : List QEntry) : (drainAll q).Perm q :=
  drain_perm (Nat.le_refl _)

theorem drainAll_sorted (q : List QEntry) : List.Pairwise qLe (drainAll q) :=
  drain_sorted _ _

/-- In-place list update at an index (a dict write keyed by task id). -/
def modifyAt (f : DownloadTask → DownloadTask) : Nat → List DownloadTask → List DownloadTask
  | _, [] => []
  | 0, t :: ts => f t :: ts
  | n + 1, t :: ts => t :: modifyAt f n ts

theorem modifyAt_length (f : DownloadTask → DownloadTask) (n : Nat)
    (l : List DownloadTask) : (modifyAt f n l).length = l.length := by
  induction l generalizing n with
  | nil => cases n <;> rfl
  | cons t ts ih => cases n with
    | zero => rfl
    | succ m => simpa [modifyAt] using ih m

theorem modifyAt_getElem_self (f : DownloadTask → DownloadTask) (n : Nat)
    (l : List DownloadTask) : (modifyAt f n l)[n]? = l[n]?.map f := by
  induction l generalizing n with
  | nil => cases n <;> rfl
  | cons t ts ih => cases n with
    | zero => simp [modifyAt]
    | succ m => simpa [modifyAt] using ih m

/-- State of the DownloadManager: the shared mutable structures of
download_manager.py.  tasks is the table of every created DownloadTask,
indexed by its id (sequential ids stand in for uuid4); queue, active and
paused mirror self.queue, self.active_downloads and self.paused_downloads;
executing is the local variable task of the single worker loop between a
queue.get() and the matching cleanup; dbQueue records db_manager.add_to_queue
calls; events records event_bus emissions; slept accumulates the
asyncio.sleep backoff waits. -/
structure Engine where
  tasks : List DownloadTask
  queue : List QEntry
  active : List Nat
  paused : List Nat
  executing : Option Nat
  dbQueue : List Nat
  events : List (String × Nat)
  slept : Nat
  maxRetries : Nat
deriving DecidableEq, Repr

def initEngine (cfg : ServiceConfig) : Engine :=
  { tasks := [], queue := [], active := [], paused := [], executing := none,
    dbQueue := [], events := [], slept := 0, maxRetries := cfg.retry_count }

def updateTask (s : Engine) (id : Nat) (f : DownloadTask → DownloadTask) : Engine :=
  { s with tasks := modifyAt f id s.tasks }

/-- BaseService.emit_event prefixes the service name:
f-string of name.lower() and the event name, name being DownloadManager. -/
def emit_event (s : Engine) (event_name : String) (id : Nat) : Engine :=
  { s with events := s.events ++ [("downloadmanager" ++ ":" ++ event_name, id)] }

/-- add_download (download_manager.py lines 317-371): duplicate check against
the persistence collaborator first (isDup is db_manager.check_duplicate url),
then task creation, db queue record, push of (-priority, created_at, task),
and the added event.  The duplicate branch raises before any mutation. -/
def add_download (s : Engine) (url : String) (priority : Int) (now : Nat)
    (isDup : Bool) : Except String (Engine × DownloadTask) :=
  if isDup then
    Except.error "This video has already been downloaded"
  else
    let id := s.tasks.length
    let task : DownloadTask :=
      { id := id, url := url, priority := priority, created_at := now,
        status := DownloadStatus.pending, retry_count := 0, progress := 0,
        error_message := none }
    let s1 := { s with tasks := s.tasks ++ [task], dbQueue := s.dbQueue ++ [id] }
    let s2 := { s1 with
      queue := s1.queue ++ [{ negPriority := -priority, created_at := now, taskId := id }] }
    Except.ok (emit_event s2 "download:added" task.id, task)

/-- The head of the worker loop (lines 382-399): take the minimal entry from
the priority queue, claim it in active_downloads, mark it DOWNLOADING.  A
worker already holding a task does nothing here. -/
def worker_dequeue (s : Engine) : Engine :=
  match s.executing with
  | some _ => s
  | none =>
    match popMin s.queue with
    | none => s
    | some (e, rest) =>
      let s1 := { s with queue := rest, executing := some e.taskId,
                         active := s.active ++ [e.taskId] }
      updateTask s1 e.taskId (fun t => { t with status := DownloadStatus.downloading })

/-- Backoff before a retry re-push (line 536): asyncio.sleep(2 ** retry_count)
with the already-incremented counter. -/
def backoffDelay (retries : Nat) : Nat := 2 ^ retries

/-- Success path of _execute_download (lines 440-512) together with the
worker cleanup (lines 413-418): COMPLETED status, completion event, removal
from active_downloads if still present. -/
def exec_success (s : Engine) : Engine :=
  match s.executing with
  | none => s
  | some id =>
    let s1 := updateTask s id (fun t =>
      { t with status := DownloadStatus.completed, progress := 100 })
    let s2 := emit_event s1 "download:completed" id
    { s2 with active := s2.active.filter (fun x => x ≠ id), executing := none }

/-- Failure path of _execute_download (lines 514-537) together with the worker
cleanup: FAILED status, error message, incremented retry_count, failure event
emitted unconditionally, then — when the incremented counter is still below
config.retry_count — the backoff sleep and the re-push of
(-task.priority, task.created_at, task); finally removal from
active_downloads if still present. -/
def exec_fail (s : Engine) (msg : String) : Engine :=
  match s.executing with
  | none => s
  | some id =>
    match s.tasks[id]? with
    | none => s
    | some t =>
      let rc := t.retry_count + 1
      let s1 := updateTask s id (fun u =>
        { u with status := DownloadStatus.failed, error_message := some msg,
                 retry_count := rc })
      let s2 := emit_event s1 "download:failed" id
      let s3 :=
        if rc < s2.maxRetries then
          { s2 with slept := s2.slept + backoffDelay rc,
                    queue := s2.queue ++
                      [{ negPriority := -t.priority, created_at := t.created_at,
                         taskId := id }] }
        else s2
      { s3 with active := s3.active.filter (fun x => x ≠ id), executing := none }

/-- pause_download (lines 539-558): only tasks present in active_downloads can
be paused; they move to paused_downloads with status PAUSED. -/
def pause_download (s : Engine) (id : Nat) : Engine × Bool :=
  if id ∈ s.active then
    let s1 := updateTask s id (fun t => { t with status := DownloadStatus.paused })
    ({ s1 with paused := s1.paused ++ [id],
               active := s1.active.filter (fun x => x ≠ id) }, true)
  else
    (s, false)

/-- resume_download (lines 560-580): only tasks in paused_downloads resume;
status back to PENDING and re-push of (-task.priority, task.created_at, task)
— the original priority and submission timestamp. -/
def resume_download (s : Engine) (id : Nat) : Engine × Bool :=
  if id ∈ s.paused then
    match s.tasks[id]? with
    | none => (s, false)
    | some t =>
      let s1 := updateTask s id (fun u => { u with status := DownloadStatus.pending })
      ({ s1 with paused := s1.paused.filter (fun x => x ≠ id),
                 queue := s1.queue ++
                   [{ negPriority := -t.priority, created_at := t.created_at,
                      taskId := id }] }, true)
  else
    (s, false)

/-- cancel_download (lines 582-608): checks active_downloads, then
paused_downloads; a task found in neither — in particular one still sitting
in the priority queue — is untouched and the call returns False. -/
def cancel_download (s : Engine) (id : Nat) : Engine × Bool :=
  if id ∈ s.active then
    let s1 := updateTask s id (fun t => { t with status := DownloadStatus.cancelled })
    ({ s1 with active := s1.active.filter (fun x => x ≠ id) }, true)
  else if id ∈ s.paused then
    ({ s with paused := s.paused.filter (fun x => x ≠ id) }, true)
  else
    (s, false)

/-- get_download_status (lines 618-633): reads active_downloads then
paused_downloads, None otherwise. -/
def get_download_status (s : Engine) (id : Nat) : Option DownloadTask :=
  if id ∈ s.active then s.tasks[id]?
  else if id ∈ s.paused then s.tasks[id]?
  else none

/-- get_active_downloads (lines 610-616): the tasks of active_downloads. -/
def get_active_downloads (s : Engine) : List DownloadTask :=
  s.active.filterMap (fun id => s.tasks[id]?)

/-- One atomic block of the engine, as seen from the asyncio event loop. -/
inductive EngineAction where
  | add (url : String) (priority : Int) (now : Nat) (isDup : Bool)
  | dequeue
  | execSuccess
  | execFail (msg : String)
  | pause (id : Nat)
  | resume (id : Nat)
  | cancel (id : Nat)
deriving DecidableEq, Repr

def step (s : Engine) : EngineAction → Engine
  | EngineAction.add url p now dup =>
    match add_download s url p now dup with
    | Except.ok (s', _) => s'
    | Except.error _ => s
  | EngineAction.dequeue => worker_dequeue s
  | EngineAction.execSuccess => exec_success s
  | EngineAction.execFail msg => exec_fail s msg
  | EngineAction.pause id => (pause_download s id).1
  | EngineAction.resume id => (resume_download s id).1
  | EngineAction.cancel id => (cancel_download s id).1

def run (s : Engine) (acts : List EngineAction) : Engine := acts.foldl step s

/-- Number of queue entries carrying a given task id. -/
def queueCount (s : Engine) (id : Nat) : Nat :=
  s.queue.countP (fun e => e.taskId == id)

/-- How many of {queue, active_downloads, paused_downloads} hold the id. -/
def ownerCount (s : Engine) (id : Nat) : Nat :=
  (if 0 < queueCount s id then 1 else 0) +
  (if id ∈ s.active then 1 else 0) +
  (if id ∈ s.paused then 1 else 0)

/-- Cache TTL: self._cache_duration = timedelta(minutes=10), in seconds. -/
def cacheDuration : Nat := 600

/-- Lookup of self._metadata_cache: url mapped to (info, cached_time); the
resolved info dictionary is abstracted to a Nat token. -/
def lookupCache : List (String × Nat × Nat) → String → Option (Nat × Nat)
  | [], _ => none
  | (u, i, t) :: rest, url => if u = url then some (i, t) else lookupCache rest url

/-- Dict assignment self._metadata_cache[url] = (info, now). -/
def setCache : List (String × Nat × Nat) → String → Nat → Nat → List (String × Nat × Nat)
  | [], url, info, time => [(url, info, time)]
  | (u, i, t) :: rest, url, info, time =>
    if u = url then (url, info, time) :: rest
    else (u, i, t) :: setCache rest url info time

theorem lookupCache_setCache_self (c : List (String × Nat × Nat)) (url : String)
    (info time : Nat) : lookupCache (setCache c url info time) url = some (info, time) := by
  induction c with
  | nil => simp [setCache, lookupCache]
  | cons e rest ih =>
    obtain ⟨u, i, t⟩ := e
    by_cases h : u = url <;> simp [setCache, lookupCache, h, ih]

/-- State of the metadata cache of the DownloadManager, with a counter of
Resolution Service invocations (ydl.extract_info calls). -/
structure CacheState where
  cache : List (String × Nat × Nat)
  fetches : Nat
deriving DecidableEq, Repr

/-- get_video_info (lines 635-682): on a cache hit younger than the TTL the
cached info is returned without contacting the Resolution Service; otherwise
the service is invoked (fresh is the info it returns) and, when use_cache is
set, the result is stored under the url with the current time. -/
def get_video_info (s : CacheState) (url : String) (now : Nat)
    (use_cache : Bool) (fresh : Nat) : Nat × CacheState :=
  match (if use_cache then lookupCache s.cache url else none) with
  | some (info, cached_time) =>
    if now - cached_time < cacheDuration then
      (info, s)
    else
      (fresh, { cache := if use_cache then setCache s.cache url fresh now else s.cache,
                fetches := s.fetches + 1 })
  | none =>
    (fresh, { cache := if use_cache then setCache s.cache url fresh now else s.cache,
              fetches := s.fetches + 1 })

/-- The periodic _cleanup_cache (lines 122-133): entries whose age is at least
the TTL are removed. -/
def cleanup_cache (s : CacheState) (now : Nat) : CacheState :=
  { s with cache := s.cache.filter (fun e => now - e.2.2 < cacheDuration) }

/-- C1: the Task Queue dequeues jobs in non-increasing priority order
(priority is the negation of the stored negPriority), FIFO within equal
priority, and the dequeue sequence is a permutation of the queue content; in
the concrete scenario of three add_download calls with priorities [1, 5, 5]
the pop order is job2, job3, job1 (ids 1, 2, 0). -/
theorem C1_priority_fifo_order :
    (∀ q : List QEntry,
      (drainAll q).Perm q ∧
      List.Pairwise (fun a b =>
        -b.negPriority ≤ -a.negPriority ∧
        (a.negPriority = b.negPriority → a.created_at ≤ b.created_at))
        (drainAll q)) ∧
    (drainAll (run (initEngine defaultConfig)
      [EngineAction.add "u1" 1 0 false, EngineAction.add "u2" 5 1 false,
       EngineAction.add "u3" 5 2 false]).queue).map (fun e => e.taskId) = [1, 2, 0] := by
  constructor
  · intro q
    refine ⟨drainAll_perm q, (drainAll_sorted q).imp ?_⟩
    intro a b hab
    unfold qLe at hab
    exact ⟨by omega, fun h => by omega⟩
  · decide

/-- C9: when the persistence collaborator reports the URL as a duplicate,
add_download raises the duplicate error and the engine state is unchanged:
no task is created, nothing is pushed on the queue, no db queue entry and no
event is recorded. -/
theorem C9_duplicate_rejected_atomically (s : Engine) (url : String)
    (priority : Int) (now : Nat) :
    add_download s url priority now true
      = Except.error "This video has already been downloaded" ∧
    step s (EngineAction.add url priority now true) = s :=
  ⟨rfl, rfl⟩

/-- C10: a submitted but unclaimed job (Pending, only in the priority queue)
is invisible to status queries: any id outside active_downloads and
paused_downloads gets None from get_download_status, get_active_downloads
reads only active_downloads, and concretely after one add_download the
pending job in the queue is reported by neither. -/
theorem C10_pending_job_invisible :
    (∀ (s : Engine) (id : Nat), id ∉ s.active → id ∉ s.paused →
      get_download_status s id = none) ∧
    (∀ s : Engine,
      get_active_downloads s = s.active.filterMap (fun id => s.tasks[id]?)) ∧
    (((run (initEngine defaultConfig) [EngineAction.add "u" 5 0 false]).tasks[0]?).map
        (fun t => t.status) = some DownloadStatus.pending ∧
      queueCount (run (initEngine defaultConfig) [EngineAction.add "u" 5 0 false]) 0 = 1 ∧
      get_download_status (run (initEngine defaultConfig)
        [EngineAction.add "u" 5 0 false]) 0 = none ∧
      get_active_downloads (run (initEngine defaultConfig)
        [EngineAction.add "u" 5 0 false]) = []) := by
  refine ⟨?_, fun s => rfl, by decide⟩
  intro s id h1 h2
  simp [get_download_status, h1, h2]

/-- C8: cache TTL correctness of get_video_info.  Starting from a state with
no cache entry for the url, two use_cache=true calls more than the TTL apart
each invoke the Resolution Service (the second returns the fresh value, not
the stale one); two calls within the TTL invoke it exactly once and the
second returns the cached value of the first. -/
theorem C8_cache_ttl (s : CacheState) (url : String) (t1 t2 f1 f2 : Nat)
    (hmiss : lookupCache s.cache url = none) :
    (cacheDuration < t2 - t1 →
      ((get_video_info ((get_video_info s url t1 true f1).2) url t2 true f2).2).fetches
        = s.fetches + 2 ∧
      (get_video_info ((get_video_info s url t1 true f1).2) url t2 true f2).1 = f2) ∧
    (t2 - t1 < cacheDuration →
      ((get_video_info ((get_video_info s url t1 true f1).2) url t2 true f2).2).fetches
        = s.fetches + 1 ∧
      (get_video_info ((get_video_info s url t1 true f1).2) url t2 true f2).1
        = (get_video_info s url t1 true f1).1) := by
  have h1 : get_video_info s url t1 true f1
      = (f1, { cache := setCache s.cache url f1 t1, fetches := s.fetches + 1 }) := by
    simp [get_video_info, hmiss]
  have hl : lookupCache (setCache s.cache url f1 t1) url = some (f1, t1) :=
    lookupCache_setCache_self _ _ _ _
  constructor
  · intro hgt
    have hnot : ¬ (t2 - t1 < cacheDuration) := by omega
    rw [h1]
    simp [get_video_info, hl, hnot]
  · intro hlt
    rw [h1]
    simp [get_video_info, hl, hlt]

/-- Witness for C8 at a concrete input: empty cache, first call at time 0,
second at 700 (beyond the 600-second TTL: two fetches) and at 100 (within:
one fetch). -/
theorem C8_cache_ttl_witness :
    ((get_video_info ((get_video_info ⟨[], 0⟩ "u" 0 true 11).2) "u" 700 true 22).2).fetches
      = 2 ∧
    ((get_video_info ((get_video_info ⟨[], 0⟩ "u" 0 true 11).2) "u" 100 true 22).2).fetches
      = 1 := by
  constructor
  · exact ((C8_cache_ttl ⟨[], 0⟩ "u" 0 700 11 22 rfl).1 (by decide)).1
  · exact ((C8_cache_ttl ⟨[], 0⟩ "u" 0 100 11 22 rfl).2 (by decide)).1

/-- Witness for C10 at the concrete one-submission state. -/
theorem C10_pending_job_invisible_witness :
    get_download_status (run (initEngine defaultConfig)
      [EngineAction.add "u" 5 0 false]) 0 = none :=
  C10_pending_job_invisible.1
    (run (initEngine defaultConfig) [EngineAction.add "u" 5 0 false]) 0
    (by decide) (by decide)

/-- C2 (violation exhibited): pause_download moves a job out of
active_downloads while the worker coroutine still holds it; when that
execution then fails with retries left, _execute_download re-pushes the job
onto the priority queue although it still sits in paused_downloads — the job
is owned by two of {queue, active, paused} at once. -/
theorem C2_ownership_invariant_violated :
    queueCount (run (initEngine defaultConfig)
      [EngineAction.add "u" 5 0 false, EngineAction.dequeue,
       EngineAction.pause 0, EngineAction.execFail "boom"]) 0 = 1 ∧
    0 ∈ (run (initEngine defaultConfig)
      [EngineAction.add "u" 5 0 false, EngineAction.dequeue,
       EngineAction.pause 0, EngineAction.execFail "boom"]).paused ∧
    ownerCount (run (initEngine defaultConfig)
      [EngineAction.add "u" 5 0 false, EngineAction.dequeue,
       EngineAction.pause 0, EngineAction.execFail "boom"]) 0 = 2 := by
  decide

/-- C3 counterexample: after a single add_download the job is Pending and in
the Task Queue; cancel_download returns false for it and the queue entry
survives, so the job would still be executed — the claim that cancelling a
Pending job removes it from the queue and returns true is false on the code. -/
theorem C3_cancel_pending_counterexample :
    ((run (initEngine defaultConfig) [EngineAction.add "u" 5 0 false]).tasks[0]?).map
        (fun t => t.status) = some DownloadStatus.pending ∧
    queueCount (run (initEngine defaultConfig) [EngineAction.add "u" 5 0 false]) 0 = 1 ∧
    (cancel_download (run (initEngine defaultConfig)
        [EngineAction.add "u" 5 0 false]) 0).2 = false ∧
    queueCount (cancel_download (run (initEngine defaultConfig)
        [EngineAction.add "u" 5 0 false]) 0).1 0 = 1 := by
  decide

/-- C3 amended: cancel_download succeeds exactly for jobs in active_downloads
or paused_downloads; for any id in neither — in particular a Pending job
still in the Task Queue — it returns false and leaves the engine unchanged
(the queued job is not removed and will still be executed). -/
theorem C3_cancel_amended (s : Engine) (id : Nat) :
    ((cancel_download s id).2 = true ↔ (id ∈ s.active ∨ id ∈ s.paused)) ∧
    (id ∉ s.active → id ∉ s.paused → cancel_download s id = (s, false)) := by
  unfold cancel_download
  by_cases h1 : id ∈ s.active
  · simp [h1]
  · by_cases h2 : id ∈ s.paused <;> simp [h1, h2]

/-- Witness for C3 at the concrete one-submission state. -/
theorem C3_cancel_amended_witness :
    cancel_download (run (initEngine defaultConfig) [EngineAction.add "u" 5 0 false]) 0
      = (run (initEngine defaultConfig) [EngineAction.add "u" 5 0 false], false) :=
  (C3_cancel_amended
    (run (initEngine defaultConfig) [EngineAction.add "u" 5 0 false]) 0).2
    (by decide) (by decide)

/-- C5 counterexample: after a single failure the attempt counter is 1, below
config.retry_count = 3, and the job has been re-pushed for retry — yet the
failure event has already been emitted to subscribers, so a failed event is
emitted before the failure is terminal. -/
theorem C5_failed_event_counterexample :
    ("downloadmanager" ++ ":" ++ "download:failed", 0) ∈ (run (initEngine defaultConfig)
      [EngineAction.add "u" 5 0 false, EngineAction.dequeue,
       EngineAction.execFail "e"]).events ∧
    ((run (initEngine defaultConfig)
      [EngineAction.add "u" 5 0 false, EngineAction.dequeue,
       EngineAction.execFail "e"]).tasks[0]?).map (fun t => t.retry_count) = some 1 ∧
    (run (initEngine defaultConfig)
      [EngineAction.add "u" 5 0 false, EngineAction.dequeue,
       EngineAction.execFail "e"]).maxRetries = 3 ∧
    queueCount (run (initEngine defaultConfig)
      [EngineAction.add "u" 5 0 false, EngineAction.dequeue,
       EngineAction.execFail "e"]) 0 = 1 := by
  decide

/-- C5 amended: _execute_download emits the failed event on every failed
attempt — before the retry decision — so non-terminal retried failures are
surfaced to subscribers too, not only terminal ones. -/
theorem C5_failed_event_every_attempt (s : Engine) (id : Nat) (t : DownloadTask)
    (msg : String) (hex : s.executing = some id) (ht : s.tasks[id]? = some t) :
    ("downloadmanager" ++ ":" ++ "download:failed", id) ∈ (exec_fail s msg).events := by
  by_cases h : t.retry_count + 1 < s.maxRetries <;>
    simp [exec_fail, hex, ht, emit_event, updateTask, h]

/-- Witness for C5, one failing attempt after one dequeue. -/
theorem C5_failed_event_every_attempt_witness :
    ("downloadmanager" ++ ":" ++ "download:failed", 0) ∈
      (exec_fail (run (initEngine defaultConfig)
        [EngineAction.add "u" 5 0 false, EngineAction.dequeue]) "e").events :=
  C5_failed_event_every_attempt
    (run (initEngine defaultConfig) [EngineAction.add "u" 5 0 false, EngineAction.dequeue])
    0 ⟨0, "u", 5, 0, DownloadStatus.downloading, 0, 0, none⟩ "e"
    (by decide) (by decide)

/-- C6: on a non-terminal failure the backoff delay is base * 2^attempts with
base 1 second and attempts the incremented counter, and the re-push carries
the original priority and original created_at; concretely, with max-attempts
3 a job that fails twice has waited 2^1 + 2^2 = 6 seconds of backoff — no
earlier than ~3s after the first failure — before the third attempt, which on
success reaches Completed. -/
theorem C6_backoff_exponential (s : Engine) (id : Nat) (t : DownloadTask)
    (msg : String) (hex : s.executing = some id) (ht : s.tasks[id]? = some t)
    (hretry : t.retry_count + 1 < s.maxRetries) :
    backoffDelay (t.retry_count + 1) = 1 * 2 ^ (t.retry_count + 1) ∧
    (exec_fail s msg).queue = s.queue ++
      [{ negPriority := -t.priority, created_at := t.created_at, taskId := id }] ∧
    (exec_fail s msg).slept = s.slept + backoffDelay (t.retry_count + 1) ∧
    (((run (initEngine defaultConfig)
        [EngineAction.add "u" 5 0 false, EngineAction.dequeue, EngineAction.execFail "e",
         EngineAction.dequeue, EngineAction.execFail "e",
         EngineAction.dequeue, EngineAction.execSuccess]).tasks[0]?).map
        (fun u => u.status) = some DownloadStatus.completed ∧
      (run (initEngine defaultConfig)
        [EngineAction.add "u" 5 0 false, EngineAction.dequeue, EngineAction.execFail "e",
         EngineAction.dequeue, EngineAction.execFail "e",
         EngineAction.dequeue, EngineAction.execSuccess]).slept = 6 ∧
      3 ≤ (run (initEngine defaultConfig)
        [EngineAction.add "u" 5 0 false, EngineAction.dequeue, EngineAction.execFail "e",
         EngineAction.dequeue, EngineAction.execFail "e",
         EngineAction.dequeue, EngineAction.execSuccess]).slept) := by
  refine ⟨by simp [backoffDelay], ?_, ?_, by decide⟩
  · simp [exec_fail, hex, ht, emit_event, updateTask, hretry]
  · simp [exec_fail, hex, ht, emit_event, updateTask, hretry]

/-- Witness for C6: the first failure of a freshly dequeued job waits
backoffDelay 1 = 2 seconds and re-pushes (-5, 0, 0). -/
theorem C6_backoff_exponential_witness :
    (exec_fail (run (initEngine defaultConfig)
        [EngineAction.add "u" 5 0 false, EngineAction.dequeue]) "e").queue
      = (run (initEngine defaultConfig)
        [EngineAction.add "u" 5 0 false, EngineAction.dequeue]).queue ++
        [{ negPriority := -(5 : Int), created_at := 0, taskId := 0 }] ∧
    (exec_fail (run (initEngine defaultConfig)
        [EngineAction.add "u" 5 0 false, EngineAction.dequeue]) "e").slept
      = (run (initEngine defaultConfig)
        [EngineAction.add "u" 5 0 false, EngineAction.dequeue]).slept + backoffDelay 1 := by
  have h := C6_backoff_exponential
    (run (initEngine defaultConfig) [EngineAction.add "u" 5 0 false, EngineAction.dequeue])
    0 ⟨0, "u", 5, 0, DownloadStatus.downloading, 0, 0, none⟩ "e"
    (by decide) (by decide) (by decide)
  exact ⟨h.2.1, h.2.2.1⟩

/-- C7: resume_download succeeds on a paused job or re-enqueues it with the
original priority and the original created_at; consequently, in the dequeue
order of the resulting queue the resumed entry comes strictly before every
queue entry of the same priority with a later submission timestamp. -/
theorem C7_resume_preserves_order (s : Engine) (id : Nat) (t : DownloadTask)
    (hp : id ∈ s.paused) (ht : s.tasks[id]? = some t) :
    (resume_download s id).2 = true ∧
    (resume_download s id).1.queue = s.queue ++
      [{ negPriority := -t.priority, created_at := t.created_at, taskId := id }] ∧
    (∀ e ∈ s.queue, e.negPriority = -t.priority → t.created_at < e.created_at →
      ∀ (i j : Fin (drainAll ((resume_download s id).1.queue)).length),
        (drainAll ((resume_download s id).1.queue)).get i
          = { negPriority := -t.priority, created_at := t.created_at, taskId := id } →
        (drainAll ((resume_download s id).1.queue)).get j = e →
        (i : Nat) < (j : Nat)) := by
  refine ⟨by simp [resume_download, hp, ht], by simp [resume_download, hp, ht, updateTask], ?_⟩
  intro e he hnp hct i j hi hj
  have hpw := drainAll_sorted ((resume_download s id).1.queue)
  rw [List.pairwise_iff_get] at hpw
  rcases Nat.lt_trichotomy (i : Nat) (j : Nat) with h | h | h
  · exact h
  · exfalso
    have hij : i = j := Fin.ext h
    rw [hij, hj] at hi
    have : e.created_at = t.created_at := by rw [hi]
    omega
  · exfalso
    have hlt : j < i := h
    have := hpw j i hlt
    rw [hi, hj] at this
    unfold qLe at this
    simp only at this
    omega

/-- Witness for C7: job 0 (priority 5, created 0) is dequeued and paused, job
1 (priority 5, created 7) is then submitted; resuming job 0 re-enqueues it
with its original key (-5, 0). -/
theorem C7_resume_preserves_order_witness :
    (resume_download (run (initEngine defaultConfig)
      [EngineAction.add "a" 5 0 false, EngineAction.dequeue,
       EngineAction.pause 0, EngineAction.add "b" 5 7 false]) 0).2 = true ∧
    (resume_download (run (initEngine defaultConfig)
      [EngineAction.add "a" 5 0 false, EngineAction.dequeue,
       EngineAction.pause 0, EngineAction.add "b" 5 7 false]) 0).1.queue
      = (run (initEngine defaultConfig)
          [EngineAction.add "a" 5 0 false, EngineAction.dequeue,
           EngineAction.pause 0, EngineAction.add "b" 5 7 false]).queue ++
        [{ negPriority := -(5 : Int), created_at := 0, taskId := 0 }] := by
  have h := C7_resume_preserves_order
    (run (initEngine defaultConfig)
      [EngineAction.add "a" 5 0 false, EngineAction.dequeue,
       EngineAction.pause 0, EngineAction.add "b" 5 7 false]) 0
    ⟨0, "a", 5, 0, DownloadStatus.paused, 0, 0, none⟩
    (by decide) (by decide)
  exact ⟨h.1, h.2.1⟩

/-- A task id the engine no longer holds anywhere: not in the queue, not in
active_downloads or paused_downloads, not claimed by the worker, and already
allocated (so add_download's fresh sequential ids never collide with it). -/
def unowned (s : Engine) (id : Nat) : Prop :=
  queueCount s id = 0 ∧ id ∉ s.active ∧ id ∉ s.paused ∧
    s.executing ≠ some id ∧ id < s.tasks.length

theorem step_preserves_unowned {s : Engine} {id : Nat} (h : unowned s id)
    (a : EngineAction) : unowned (step s a) id := by
  obtain ⟨hq, ha, hp, he, hl⟩ := h
  unfold queueCount at hq
  cases a with
  | add url p now dup =>
    cases dup with
    | true => exact ⟨hq, ha, hp, he, hl⟩
    | false =>
      have hne : (s.tasks.length == id) = false :=
        beq_eq_false_iff_ne.mpr (by omega)
      refine ⟨?_, ?_, ?_, ?_, ?_⟩
      · unfold queueCount step add_download emit_event
        simp [List.countP_append, List.countP_cons, hq, hne]
      · simpa [step, add_download, emit_event] using ha
      · simpa [step, add_download, emit_event] using hp
      · simpa [step, add_download, emit_event] using he
      · simp [step, add_download, emit_event]
        omega
  | dequeue =>
    unfold step worker_dequeue
    cases hexec : s.executing with
    | some w => exact ⟨hq, ha, hp, he, hl⟩
    | none =>
      cases hpop : popMin s.queue with
      | none => exact ⟨hq, ha, hp, he, hl⟩
      | some pr =>
        obtain ⟨e, rest⟩ := pr
        have hperm := popMin_perm hpop
        have hcnt : List.countP (fun x => x.taskId == id) (e :: rest) = 0 := by
          rw [← hperm.countP_eq]; exact hq
        rw [List.countP_cons] at hcnt
        cases hbe : (e.taskId == id) with
        | true => rw [hbe] at hcnt; simp at hcnt
        | false =>
          rw [hbe] at hcnt
          simp at hcnt
          have hne : e.taskId ≠ id := beq_eq_false_iff_ne.mp hbe
          refine ⟨?_, ?_, hp, ?_, ?_⟩
          · unfold queueCount
            simpa [updateTask] using hcnt
          · simp [updateTask, List.mem_append]
            exact ⟨ha, fun hcontra => hne hcontra.symm⟩
          · simp [updateTask]
            exact fun hcontra => hne hcontra
          · simpa [updateTask, modifyAt_length] using hl
  | execSuccess =>
    unfold step exec_success
    cases hexec : s.executing with
    | none => exact ⟨hq, ha, hp, he, hl⟩
    | some w =>
      have hw : w ≠ id := fun hcontra => he (by rw [hexec, hcontra])
      refine ⟨?_, ?_, hp, ?_, ?_⟩
      · unfold queueCount
        simpa [updateTask, emit_event] using hq
      · simp [updateTask, emit_event, List.mem_filter]
        intro hmem
        exact absurd hmem ha
      · simp [updateTask, emit_event]
      · simpa [updateTask, emit_event, modifyAt_length] using hl
  | execFail msg =>
    show unowned (exec_fail s msg) id
    cases hexec : s.executing with
    | none =>
      simp only [exec_fail, hexec]
      exact ⟨hq, ha, hp, he, hl⟩
    | some w =>
      have hw : w ≠ id := fun hcontra => he (by rw [hexec, hcontra])
      cases hget : s.tasks[w]? with
      | none =>
        simp only [exec_fail, hexec, hget]
        exact ⟨hq, ha, hp, he, hl⟩
      | some t =>
        simp only [exec_fail, hexec, hget]
        have hbw : (w == id) = false := beq_eq_false_iff_ne.mpr hw
        by_cases hretry : t.retry_count + 1 < s.maxRetries
        · refine ⟨?_, ?_, ?_, ?_, ?_⟩
          · unfold queueCount
            simp [updateTask, emit_event, hretry, List.countP_append,
              List.countP_cons, hq, hbw]
          · simp [updateTask, emit_event, hretry, List.mem_filter]
            intro hmem
            exact absurd hmem ha
          · simpa [updateTask, emit_event, hretry] using hp
          · simp [updateTask, emit_event, hretry]
          · simpa [updateTask, emit_event, hretry, modifyAt_length] using hl
        · refine ⟨?_, ?_, ?_, ?_, ?_⟩
          · unfold queueCount
            simpa [updateTask, emit_event, hretry] using hq
          · simp [updateTask, emit_event, hretry, List.mem_filter]
            intro hmem
            exact absurd hmem ha
          · simpa [updateTask, emit_event, hretry] using hp
          · simp [updateTask, emit_event, hretry]
          · simpa [updateTask, emit_event, hretry, modifyAt_length] using hl
  | pause pid =>
    unfold step pause_download
    by_cases hmem : pid ∈ s.active
    · have hne : pid ≠ id := fun hcontra => ha (hcontra ▸ hmem)
      refine ⟨?_, ?_, ?_, ?_, ?_⟩
      · unfold queueCount
        simpa [updateTask, hmem] using hq
      · simp [updateTask, hmem, List.mem_filter]
        intro hmem2
        exact absurd hmem2 ha
      · simp [updateTask, hmem, List.mem_append]
        exact ⟨hp, fun hcontra => hne hcontra.symm⟩
      · simpa [updateTask, hmem] using he
      · simpa [updateTask, hmem, modifyAt_length] using hl
    · simp only [hmem, if_neg, not_false_iff]
      exact ⟨hq, ha, hp, he, hl⟩
  | resume pid =>
    unfold step resume_download
    by_cases hmem : pid ∈ s.paused
    · have hne : pid ≠ id := fun hcontra => hp (hcontra ▸ hmem)
      have hbp : (pid == id) = false := beq_eq_false_iff_ne.mpr hne
      cases hget : s.tasks[pid]? with
      | none =>
        simp only [hmem, if_pos, hget]
        exact ⟨hq, ha, hp, he, hl⟩
      | some t =>
        simp only [hmem, if_pos, hget]
        refine ⟨?_, ?_, ?_, ?_, ?_⟩
        · unfold queueCount
          simp [updateTask, List.countP_append, List.countP_cons, hq, hbp]
        · simpa [updateTask] using ha
        · simp [updateTask, List.mem_filter]
          intro hmem2
          exact absurd hmem2 hp
        · simpa [updateTask] using he
        · simpa [updateTask, modifyAt_length] using hl
    · simp only [hmem, if_neg, not_false_iff]
      exact ⟨hq, ha, hp, he, hl⟩
  | cancel cid =>
    unfold step cancel_download
    by_cases hmem : cid ∈ s.active
    · refine ⟨?_, ?_, ?_, ?_, ?_⟩
      · unfold queueCount
        simpa [updateTask, hmem] using hq
      · simp [updateTask, hmem, List.mem_filter]
        intro hmem2
        exact absurd hmem2 ha
      · simpa [updateTask, hmem] using hp
      · simpa [updateTask, hmem] using he
      · simpa [updateTask, hmem, modifyAt_length] using hl
    · by_cases hmem2 : cid ∈ s.paused
      · refine ⟨?_, ?_, ?_, ?_, ?_⟩
        · unfold queueCount
          simpa [hmem, hmem2] using hq
        · simpa [hmem, hmem2] using ha
        · simp [hmem, hmem2, List.mem_filter]
          intro hmem3
          exact absurd hmem3 hp
        · simpa [hmem, hmem2] using he
        · simpa [hmem, hmem2] using hl
      · simp only [hmem, hmem2, if_neg, not_false_iff]
        exact ⟨hq, ha, hp, he, hl⟩

theorem run_preserves_unowned {s : Engine} {id : Nat} (h : unowned s id)
    (acts : List EngineAction) : unowned (run s acts) id := by
  induction acts generalizing s with
  | nil => exact h
  | cons a as ih => exact ih (step_preserves_unowned h a)

/-- C4: a failure whose incremented attempt counter is still below
config.retry_count re-pushes the job exactly once; a failure that reaches the
cap leaves the job terminally Failed, removed from active_downloads, with the
queue untouched — and, when the engine holds it nowhere else, no later
sequence of engine actions ever puts it back in the queue. -/
theorem C4_retry_termination (s : Engine) (id : Nat) (t : DownloadTask)
    (msg : String) (hex : s.executing = some id) (ht : s.tasks[id]? = some t) :
    (t.retry_count + 1 < s.maxRetries →
      queueCount (exec_fail s msg) id = queueCount s id + 1) ∧
    (s.maxRetries ≤ t.retry_count + 1 →
      ((exec_fail s msg).tasks[id]?).map (fun u => u.status)
        = some DownloadStatus.failed ∧
      queueCount (exec_fail s msg) id = queueCount s id ∧
      id ∉ (exec_fail s msg).active ∧
      (queueCount s id = 0 → id ∉ s.paused →
        ∀ acts : List EngineAction,
          queueCount (run (exec_fail s msg) acts) id = 0)) := by
  have hlen : id < s.tasks.length := by
    by_contra hge
    rw [List.getElem?_eq_none (by omega)] at ht
    exact Option.noConfusion ht
  constructor
  · intro hretry
    unfold queueCount
    simp [exec_fail, hex, ht, emit_event, updateTask, hretry,
      List.countP_append, List.countP_cons]
  · intro hcap
    have hretry : ¬ (t.retry_count + 1 < s.maxRetries) := by omega
    refine ⟨?_, ?_, ?_, ?_⟩
    · simp [exec_fail, hex, ht, emit_event, updateTask, hretry,
        modifyAt_getElem_self]
    · unfold queueCount
      simp [exec_fail, hex, ht, emit_event, updateTask, hretry]
    · simp [exec_fail, hex, ht, emit_event, updateTask, hretry, List.mem_filter]
    · intro hq0 hpz acts
      have hun : unowned (exec_fail s msg) id := by
        refine ⟨?_, ?_, ?_, ?_, ?_⟩
        · unfold queueCount at hq0 ⊢
          simpa [exec_fail, hex, ht, emit_event, updateTask, hretry] using hq0
        · simp [exec_fail, hex, ht, emit_event, updateTask, hretry, List.mem_filter]
        · simpa [exec_fail, hex, ht, emit_event, updateTask, hretry] using hpz
        · simp [exec_fail, hex, ht, emit_event, updateTask, hretry]
        · simpa [exec_fail, hex, ht, emit_event, updateTask, hretry,
            modifyAt_length] using hlen
      exact (run_preserves_unowned hun acts).1

/-- Witness for C4: the job has failed twice (retry_count 2) and has just
been dequeued for its third attempt; with config.retry_count 3 the third
failure is terminal, the job is nowhere, and on any further actions —
including another dequeue and an attempted resume — it never re-enters the
queue. -/
theorem C4_retry_termination_witness :
    ((exec_fail (run (initEngine defaultConfig)
        [EngineAction.add "u" 5 0 false, EngineAction.dequeue, EngineAction.execFail "e",
         EngineAction.dequeue, EngineAction.execFail "e", EngineAction.dequeue])
        "e").tasks[0]?).map (fun u => u.status) = some DownloadStatus.failed ∧
    0 ∉ (exec_fail (run (initEngine defaultConfig)
        [EngineAction.add "u" 5 0 false, EngineAction.dequeue, EngineAction.execFail "e",
         EngineAction.dequeue, EngineAction.execFail "e", EngineAction.dequeue])
        "e").active ∧
    queueCount (run (exec_fail (run (initEngine defaultConfig)
        [EngineAction.add "u" 5 0 false, EngineAction.dequeue, EngineAction.execFail "e",
         EngineAction.dequeue, EngineAction.execFail "e", EngineAction.dequeue]) "e")
      [EngineAction.dequeue, EngineAction.resume 0]) 0 = 0 := by
  have h := (C4_retry_termination (run (initEngine defaultConfig)
      [EngineAction.add "u" 5 0 false, EngineAction.dequeue, EngineAction.execFail "e",
       EngineAction.dequeue, EngineAction.execFail "e", EngineAction.dequeue]) 0
      ⟨0, "u", 5, 0, DownloadStatus.downloading, 2, 0, some "e"⟩ "e"
      (by decide) (by decide)).2 (by decide)
  exact ⟨h.1, h.2.2.1,
    h.2.2.2 (by decide) (by decide) [EngineAction.dequeue, EngineAction.resume 0]⟩

/-- C4 counterexample: with config.retry_count = 3, a job paused during its
third, final failing attempt ends terminally Failed (retry_count 3) and
absent from the queue, but it remains in paused_downloads; a subsequent
resume_download re-pushes the terminally Failed job onto the Task Queue — so
the job is re-pushed after exactly max-attempts consecutive failures, and
the unconditional never-re-pushed-again claim is false on the code. -/
theorem C4_terminal_failure_requeued_counterexample :
    (((run (initEngine defaultConfig)
        [EngineAction.add "u" 5 0 false, EngineAction.dequeue, EngineAction.execFail "e",
         EngineAction.dequeue, EngineAction.execFail "e",
         EngineAction.dequeue, EngineAction.pause 0, EngineAction.execFail "e"]).tasks[0]?).map
      (fun t => t.status)) = some DownloadStatus.failed ∧
    (((run (initEngine defaultConfig)
        [EngineAction.add "u" 5 0 false, EngineAction.dequeue, EngineAction.execFail "e",
         EngineAction.dequeue, EngineAction.execFail "e",
         EngineAction.dequeue, EngineAction.pause 0, EngineAction.execFail "e"]).tasks[0]?).map
      (fun t => t.retry_count)) = some 3 ∧
    (run (initEngine defaultConfig)
        [EngineAction.add "u" 5 0 false, EngineAction.dequeue, EngineAction.execFail "e",
         EngineAction.dequeue, EngineAction.execFail "e",
         EngineAction.dequeue, EngineAction.pause 0, EngineAction.execFail "e"]).maxRetries = 3 ∧
    queueCount (run (initEngine defaultConfig)
        [EngineAction.add "u" 5 0 false, EngineAction.dequeue, EngineAction.execFail "e",
         EngineAction.dequeue, EngineAction.execFail "e",
         EngineAction.dequeue, EngineAction.pause 0, EngineAction.execFail "e"]) 0 = 0 ∧
    0 ∈ (run (initEngine defaultConfig)
        [EngineAction.add "u" 5 0 false, EngineAction.dequeue, EngineAction.execFail "e",
         EngineAction.dequeue, EngineAction.execFail "e",
         EngineAction.dequeue, EngineAction.pause 0, EngineAction.execFail "e"]).paused ∧
    queueCount (run (initEngine defaultConfig)
        [EngineAction.add "u" 5 0 false, EngineAction.dequeue, EngineAction.execFail "e",
         EngineAction.dequeue, EngineAction.execFail "e",
         EngineAction.dequeue, EngineAction.pause 0, EngineAction.execFail "e",
         EngineAction.resume 0]) 0 = 1 := by
  decide
